import Mathlib

/-!
# v7 value representation and object model (`src/vm.h`)

A shallow embedding of the NaN-boxed value word of `vm.h` and of the
operations the header declares.  The tag constants, `V7_NULL`,
`V7_UNDEFINED` and the property attribute bits are transcribed from the
header.  The header only declares the functions; their bodies are
modelled from the specification and are marked as such.

A `val_t` (`typedef uint64_t val_t`) is a natural number below `2^64`,
written `Nat`; every machine operation is reduced modulo `2^64` explicitly.
-/

namespace V7

/-! ## Machine words -/

/-- Truncation to 64 bits: the cast `(uint64_t) x`. -/
def u64 (x : Nat) : Nat := x % 2 ^ 64

/-- Bitwise complement of a 64-bit word: the C operator `~` on `uint64_t`. -/
def not64 (x : Nat) : Nat := 2 ^ 64 - 1 - u64 x

/-! ## Tag constants (vm.h lines 20-33) -/

/-- Macro `#define V7_TAG_OBJECT ((uint64_t) 0xFFFF << 48)` -/
def V7_TAG_OBJECT : Nat := u64 (u64 0xFFFF <<< 48)
/-- Macro `#define V7_TAG_FOREIGN ((uint64_t) 0xFFFE << 48)` -/
def V7_TAG_FOREIGN : Nat := u64 (u64 0xFFFE <<< 48)
/-- Macro `#define V7_TAG_UNDEFINED ((uint64_t) 0xFFFD << 48)` -/
def V7_TAG_UNDEFINED : Nat := u64 (u64 0xFFFD <<< 48)
/-- Macro `#define V7_TAG_BOOLEAN ((uint64_t) 0xFFFC << 48)` -/
def V7_TAG_BOOLEAN : Nat := u64 (u64 0xFFFC <<< 48)
/-- Macro `#define V7_TAG_NAN ((uint64_t) 0xFFFB << 48)` -/
def V7_TAG_NAN : Nat := u64 (u64 0xFFFB <<< 48)
/-- Macro `#define V7_TAG_STRING_I ((uint64_t) 0xFFFA << 48)`, inlined string. -/
def V7_TAG_STRING_I : Nat := u64 (u64 0xFFFA <<< 48)
/-- Macro `#define V7_TAG_STRING_O ((uint64_t) 0xFFF9 << 48)`, owned string. -/
def V7_TAG_STRING_O : Nat := u64 (u64 0xFFF9 <<< 48)
/-- Macro `#define V7_TAG_STRING_F ((uint64_t) 0xFFF8 << 48)`, foreign string. -/
def V7_TAG_STRING_F : Nat := u64 (u64 0xFFF8 <<< 48)
/-- Macro `#define V7_TAG_FUNCTION ((uint64_t) 0xFFF7 << 48)`, JavaScript function. -/
def V7_TAG_FUNCTION : Nat := u64 (u64 0xFFF7 <<< 48)
/-- Macro `#define V7_TAG_CFUNCTION ((uint64_t) 0xFFF6 << 48)`, C function. -/
def V7_TAG_CFUNCTION : Nat := u64 (u64 0xFFF6 <<< 48)
/-- Macro `#define V7_TAG_MASK ((uint64_t) 0xFFFF << 48)` -/
def V7_TAG_MASK : Nat := u64 (u64 0xFFFF <<< 48)

/-- Macro `#define V7_NULL V7_TAG_FOREIGN` -/
def V7_NULL : Nat := V7_TAG_FOREIGN
/-- Macro `#define V7_UNDEFINED V7_TAG_UNDEFINED` -/
def V7_UNDEFINED : Nat := V7_TAG_UNDEFINED

/-- The ten tag constants of vm.h, in the order of their definition. -/
def V7_TAGS : List Nat :=
  [V7_TAG_OBJECT, V7_TAG_FOREIGN, V7_TAG_UNDEFINED, V7_TAG_BOOLEAN, V7_TAG_NAN,
   V7_TAG_STRING_I, V7_TAG_STRING_O, V7_TAG_STRING_F, V7_TAG_FUNCTION, V7_TAG_CFUNCTION]

/-- The tag field of a word: `v & V7_TAG_MASK`. -/
def tag_of (v : Nat) : Nat := v &&& V7_TAG_MASK

/-- The payload field of a word: `v & ~V7_TAG_MASK`. -/
def payload_of (v : Nat) : Nat := v &&& not64 V7_TAG_MASK

/-! ## IEEE-754 binary64 bit fields -/

/-- Sign bit (bit 63) of a binary64 bit pattern. -/
def f64_sign (w : Nat) : Nat := w >>> 63

/-- Biased exponent (bits 52..62) of a binary64 bit pattern. -/
def f64_exponent (w : Nat) : Nat := (w >>> 52) &&& 0x7FF

/-- Fraction field (bits 0..51) of a binary64 bit pattern. -/
def f64_mantissa (w : Nat) : Nat := w &&& 0xFFFFFFFFFFFFF

/-- The C `isnan` on the bit pattern of a double: exponent all ones and a
non-zero fraction. -/
def f64_isnan (w : Nat) : Bool := f64_exponent w == 0x7FF && f64_mantissa w != 0

/-! ## Type predicates (declared at vm.h lines 106-115) -/

/-- Modelled from the spec: the body of `v7_is_object` is missing (vm.h only
declares it); section 4.1 makes each predicate a mask comparison against the
tag of its kind. -/
def v7_is_object (v : Nat) : Bool := tag_of v == V7_TAG_OBJECT

/-- Modelled from the spec: the body of `v7_is_function` is missing; a mask
comparison against the Function tag. -/
def v7_is_function (v : Nat) : Bool := tag_of v == V7_TAG_FUNCTION

/-- Modelled from the spec: the body of `v7_is_cfunction` is missing; a mask
comparison against the Native-Function tag. -/
def v7_is_cfunction (v : Nat) : Bool := tag_of v == V7_TAG_CFUNCTION

/-- Modelled from the spec: the body of `v7_is_string` is missing; the three
String variants (Inline, Owned, Foreign) share one predicate. -/
def v7_is_string (v : Nat) : Bool :=
  tag_of v == V7_TAG_STRING_I || tag_of v == V7_TAG_STRING_O || tag_of v == V7_TAG_STRING_F

/-- Modelled from the spec: the body of `v7_is_boolean` is missing; a mask
comparison against the Boolean tag. -/
def v7_is_boolean (v : Nat) : Bool := tag_of v == V7_TAG_BOOLEAN

/-- Modelled from the spec: the body of `v7_is_double` is missing; a word is a
double when its top 16 bits are the canonical NaN tag or match no reserved
tag (section 3, Value). -/
def v7_is_double (v : Nat) : Bool :=
  tag_of v == V7_TAG_NAN || !(V7_TAGS.contains (tag_of v))

/-- Modelled from the spec: the body of `v7_is_null` is missing; Null is the
foreign-pointer tag with a zero payload, the singleton `V7_NULL`. -/
def v7_is_null (v : Nat) : Bool := v == V7_NULL

/-- Modelled from the spec: the body of `v7_is_undefined` is missing; Undefined
is the singleton `V7_UNDEFINED`. -/
def v7_is_undefined (v : Nat) : Bool := v == V7_UNDEFINED

/-- The eight type predicates of the value encoding, evaluated on one word. -/
def type_predicates (v : Nat) : List Bool :=
  [v7_is_object v, v7_is_function v, v7_is_cfunction v, v7_is_string v,
   v7_is_boolean v, v7_is_double v, v7_is_null v, v7_is_undefined v]

/-! ## Conversions (declared at vm.h lines 116-132) -/

/-- Modelled from the spec: the body of `v7_pointer_to_value` is missing; a
pointer travels in the low 48 bits of the word, the 16 tag bits are cleared. -/
def v7_pointer_to_value (p : Nat) : Nat := u64 p &&& not64 V7_TAG_MASK

/-- Modelled from the spec: the body of `val_to_pointer` is missing; the
payload is the low 48 bits of the word. -/
def val_to_pointer (v : Nat) : Nat := v &&& not64 V7_TAG_MASK

/-- Modelled from the spec: the body of `v7_object_to_value` is missing; the
Object tag over the pointer payload. -/
def v7_object_to_value (o : Nat) : Nat := V7_TAG_OBJECT ||| v7_pointer_to_value o

/-- Modelled from the spec: the body of `v7_function_to_value` is missing; the
Function tag over the pointer payload. -/
def v7_function_to_value (f : Nat) : Nat := V7_TAG_FUNCTION ||| v7_pointer_to_value f

/-- Modelled from the spec: the body of `v7_foreign_to_value` is missing; the
Foreign-pointer tag over the pointer payload. -/
def v7_foreign_to_value (p : Nat) : Nat := V7_TAG_FOREIGN ||| v7_pointer_to_value p

/-- Modelled from the spec: the body of `v7_cfunction_to_value` is missing; the
Native-Function tag over the pointer payload. -/
def v7_cfunction_to_value (f : Nat) : Nat := V7_TAG_CFUNCTION ||| v7_pointer_to_value f

/-- Modelled from the spec: the body of `v7_boolean_to_value` is missing; the
payload of a Boolean word is a boolean flag (the `int` argument is a C truth
value). -/
def v7_boolean_to_value (b : Bool) : Nat := V7_TAG_BOOLEAN ||| (if b then 1 else 0)

/-- Modelled from the spec: the body of `v7_double_to_value` is missing; the
word is the bit pattern of the double `d`, except that a NaN is canonicalized
on entry to the one pattern `V7_TAG_NAN`. -/
def v7_double_to_value (d : Nat) : Nat := if f64_isnan d then V7_TAG_NAN else u64 d

/-- Modelled from the spec: the body of `val_to_object` is missing; the
payload read back as an object reference. -/
def val_to_object (v : Nat) : Nat := val_to_pointer v

/-- Modelled from the spec: the body of `val_to_function` is missing; the
payload read back as a function reference. -/
def val_to_function (v : Nat) : Nat := val_to_pointer v

/-- Modelled from the spec: the body of `val_to_foreign` is missing; the
payload read back as a foreign pointer. -/
def val_to_foreign (v : Nat) : Nat := val_to_pointer v

/-- Modelled from the spec: the body of `val_to_cfunction` is missing; the
payload read back as a native-function pointer. -/
def val_to_cfunction (v : Nat) : Nat := val_to_pointer v

/-- Modelled from the spec: the body of `val_to_boolean` is missing; the
boolean flag held in the payload. -/
def val_to_boolean (v : Nat) : Bool := (v &&& not64 V7_TAG_MASK) != 0

/-- Modelled from the spec: the body of `val_to_double` is missing; the word
reinterpreted as the bit pattern of a double. -/
def val_to_double (v : Nat) : Nat := v

/-! ## Properties and objects (vm.h lines 35-71) -/

/-- Macro `#define V7_PROPERTY_DONT_ENUM 2` -/
def V7_PROPERTY_DONT_ENUM : Nat := 2
/-- The `struct v7_property`.  The `next` link is not a field: a chain of nodes
linked through `next` is the list that holds them, in chain order.  A name is
its sequence of bytes. -/
structure v7_property where
  name : List Nat
  value : Nat
  attributes : Nat
  deriving DecidableEq, Repr

/-- The `struct v7_object`.  `properties` is the chain that starts at the head
pointer; `prototype` is the address of the prototype object, `none` for a
null pointer. -/
structure v7_object where
  properties : List v7_property
  prototype : Option Nat
  deriving DecidableEq, Repr

/-- Modelled from the spec: `struct v7` is only named in vm.h (every
operation takes a `struct v7 *`).  It is the runtime context made explicit
(section 9): the object store, where the object at address `a` is the entry of
index `a`; the string buffers, likewise by address; and what the allocator can
still provide, since an allocation may fail (section 7): the number of
property nodes and the number of string bytes left. -/
structure v7 where
  objects : List v7_object
  free_props : Nat
  bufs : List (List Nat)
  free_bytes : Nat
  deriving DecidableEq, Repr

/-- Bytes packed into a word, the first byte lowest. -/
def pack_bytes : List Nat → Nat
  | [] => 0
  | x :: xs => x % 256 + 256 * pack_bytes xs

/-- Modelled from the spec: the layout of an Inline payload is not in vm.h.
The payload holds the bytes directly, length-prefixed (section 4.3): its
lowest byte is the length, the bytes follow towards the high end, at most
five of them in the 48 bits. -/
def inline_payload (s : List Nat) : Nat := s.length % 256 + 256 * pack_bytes s

/-- The bytes held by an Inline payload, read back from the layout of
`inline_payload`.  A length above five is malformed (`none`). -/
def inline_bytes (payload : Nat) : Option (List Nat) :=
  if payload % 256 ≤ 5 then
    some ((List.range (payload % 256)).map (fun i => payload >>> (8 * (i + 1)) % 256))
  else none

/-- Modelled from the spec: the body of `val_to_string` is missing (vm.h
declares it).  It decodes a String word to a view of its bytes whatever the
storage variant: the payload itself for Inline, the buffer the payload points
to for Owned and Foreign.  Any other word is a contract violation (`none`). -/
def val_to_string (c : v7) (v : Nat) : Option (List Nat) :=
  if tag_of v == V7_TAG_STRING_I then inline_bytes (payload_of v)
  else if tag_of v == V7_TAG_STRING_O || tag_of v == V7_TAG_STRING_F then
    c.bufs[payload_of v]?
  else none

/-- The outcome of constructing a string value: the word and the new context,
a signalled allocation failure, or a contract violation. -/
inductive string_result where
  | value (v : Nat) (c : v7)
  | alloc_failed
  | violation
  deriving DecidableEq, Repr

/-- Modelled from the spec: the body of `v7_string_to_value` is missing (vm.h
line 120 declares it).  Section 4.3, construction: the bytes are the first
`len` bytes of the buffer at address `p`.  Below the small-string threshold
(at most five bytes, what the payload can hold) they are copied into the word
itself; otherwise, on the ownership flag, they are copied into a freshly
allocated buffer (Owned; the allocation may fail) or the given pointer is
wrapped without copying (Foreign; the view is then the buffer at `p`, so `len`
must be its length). -/
def v7_string_to_value (c : v7) (p len : Nat) (own : Bool) : string_result :=
  match c.bufs[p]? with
  | none => string_result.violation
  | some b =>
    if b.length < len then string_result.violation
    else if len ≤ 5 then
      string_result.value (V7_TAG_STRING_I ||| inline_payload (b.take len)) c
    else if own then
      if c.free_bytes < len then string_result.alloc_failed
      else string_result.value (V7_TAG_STRING_O ||| v7_pointer_to_value c.bufs.length)
        (v7.mk c.objects c.free_props (c.bufs ++ [b.take len]) (c.free_bytes - len))
    else if len = b.length then
      string_result.value (V7_TAG_STRING_F ||| v7_pointer_to_value p) c
    else string_result.violation

/-- Byte-lexicographic comparison of two views: the difference of the first
pair of bytes that differ, otherwise the shorter view is the smaller. -/
def bytes_cmp : List Nat → List Nat → Int
  | [], [] => 0
  | [], _ :: _ => -1
  | _ :: _, [] => 1
  | x :: xs, y :: ys => if x = y then bytes_cmp xs ys else (x : Int) - (y : Int)

/-- Modelled from the spec: the body of `s_cmp` is missing (vm.h declares it).
Section 4.3, comparison: decode both operands to a view regardless of their
storage variant, then compare byte-lexicographically; the result is negative,
zero or positive. -/
def s_cmp (c : v7) (a b : Nat) : Option Int :=
  match val_to_string c a, val_to_string c b with
  | some sa, some sb => some (bytes_cmp sa sb)
  | _, _ => none

/-- The byte-lexicographic order on byte sequences, as the specification of
the comparison: the standard lexicographic order over `<` on bytes. -/
def lex_lt (s t : List Nat) : Prop := List.Lex (fun x y : Nat => x < y) s t

/-! ## Arithmetic reading of the bit operations -/

theorem tag_consts :
    V7_TAG_OBJECT = 0xFFFF * 2 ^ 48 ∧ V7_TAG_FOREIGN = 0xFFFE * 2 ^ 48 ∧
    V7_TAG_UNDEFINED = 0xFFFD * 2 ^ 48 ∧ V7_TAG_BOOLEAN = 0xFFFC * 2 ^ 48 ∧
    V7_TAG_NAN = 0xFFFB * 2 ^ 48 ∧ V7_TAG_STRING_I = 0xFFFA * 2 ^ 48 ∧
    V7_TAG_STRING_O = 0xFFF9 * 2 ^ 48 ∧ V7_TAG_STRING_F = 0xFFF8 * 2 ^ 48 ∧
    V7_TAG_FUNCTION = 0xFFF7 * 2 ^ 48 ∧ V7_TAG_CFUNCTION = 0xFFF6 * 2 ^ 48 := by
  decide

theorem tag_of_eq (w : Nat) : tag_of w = (w / 2 ^ 48 % 2 ^ 16) * 2 ^ 48 := by
  have hm : V7_TAG_MASK = 2 ^ 48 * (2 ^ 16 - 1) := by decide
  unfold tag_of
  rw [hm, Nat.mul_comm (w / 2 ^ 48 % 2 ^ 16)]
  apply Nat.eq_of_testBit_eq
  intro i
  rw [Nat.testBit_and, Nat.testBit_mul_pow_two, Nat.testBit_mul_pow_two,
    Nat.testBit_two_pow_sub_one, Nat.testBit_mod_two_pow, ← Nat.shiftRight_eq_div_pow,
    Nat.testBit_shiftRight]
  by_cases h : i ≥ 48
  · have : 48 + (i - 48) = i := by omega
    simp [h, this, Bool.and_comm]
  · simp [h]

theorem payload_of_eq (w : Nat) : payload_of w = w % 2 ^ 48 := by
  have hm : not64 V7_TAG_MASK = 2 ^ 48 - 1 := by decide
  unfold payload_of
  rw [hm, Nat.and_pow_two_sub_one_eq_mod]

theorem val_to_pointer_eq (w : Nat) : val_to_pointer w = w % 2 ^ 48 :=
  payload_of_eq w

theorem v7_pointer_to_value_eq (p : Nat) : v7_pointer_to_value p = p % 2 ^ 48 := by
  have h := payload_of_eq (u64 p)
  unfold payload_of at h
  unfold v7_pointer_to_value
  rw [h]
  unfold u64
  omega

theorem tag_or_payload (k p : Nat) (hp : p < 2 ^ 48) :
    (k * 2 ^ 48) ||| p = k * 2 ^ 48 + p := by
  rw [Nat.mul_comm, Nat.mul_add_lt_is_or hp]

theorem f64_sign_eq (w : Nat) : f64_sign w = w / 2 ^ 63 := by
  unfold f64_sign; rw [Nat.shiftRight_eq_div_pow]

theorem f64_exponent_eq (w : Nat) : f64_exponent w = w / 2 ^ 52 % 2 ^ 11 := by
  unfold f64_exponent
  rw [Nat.shiftRight_eq_div_pow, show (0x7FF : Nat) = 2 ^ 11 - 1 by decide,
    Nat.and_pow_two_sub_one_eq_mod]

theorem f64_mantissa_eq (w : Nat) : f64_mantissa w = w % 2 ^ 52 := by
  unfold f64_mantissa
  rw [show (0xFFFFFFFFFFFFF : Nat) = 2 ^ 52 - 1 by decide, Nat.and_pow_two_sub_one_eq_mod]

theorem f64_isnan_iff (w : Nat) :
    f64_isnan w = true ↔ w / 2 ^ 52 % 2 ^ 11 = 0x7FF ∧ w % 2 ^ 52 ≠ 0 := by
  unfold f64_isnan
  rw [f64_exponent_eq, f64_mantissa_eq]
  simp

theorem mem_tags_iff (t : Nat) :
    t ∈ V7_TAGS ↔ ∃ k, 0xFFF6 ≤ k ∧ k ≤ 0xFFFF ∧ t = k * 2 ^ 48 := by
  obtain ⟨h1, h2, h3, h4, h5, h6, h7, h8, h9, h10⟩ := tag_consts
  simp only [V7_TAGS, List.mem_cons, List.mem_singleton, List.not_mem_nil, or_false,
    h1, h2, h3, h4, h5, h6, h7, h8, h9, h10]
  constructor
  · rintro (h | h | h | h | h | h | h | h | h | h) <;> exact ⟨_, by norm_num, by norm_num, h⟩
  · rintro ⟨k, hl, hu, rfl⟩
    omega

theorem type_predicates_count (w : Nat) : (type_predicates w).count true ≤ 1 := by
  obtain ⟨h1, h2, h3, h4, h5, h6, h7, h8, h9, h10⟩ := tag_consts
  have hn : w = V7_NULL → tag_of w = V7_TAG_FOREIGN := by rintro rfl; decide
  have hu : w = V7_UNDEFINED → tag_of w = V7_TAG_UNDEFINED := by rintro rfl; decide
  simp only [type_predicates, v7_is_object, v7_is_function, v7_is_cfunction, v7_is_string,
    v7_is_boolean, v7_is_double, v7_is_null, v7_is_undefined, V7_TAGS]
  generalize tag_of w = t at *
  rw [h2] at hn
  rw [h3] at hu
  simp only [h1, h2, h3, h4, h5, h6, h7, h8, h9, h10, List.contains_cons, List.contains_nil,
     List.count_cons, List.count_nil, beq_iff_eq, Bool.or_eq_true, Bool.not_eq_true',
     Bool.or_false, Bool.or_eq_false_iff, beq_eq_false_iff_ne]
  have ha : (if w = V7_NULL then 1 else 0) ≤ 1 ∧
      ((if w = V7_NULL then 1 else 0) = 0 ∨ t = 65534 * 2 ^ 48) := by
    split_ifs with h
    · exact ⟨le_refl _, Or.inr (hn h)⟩
    · exact ⟨by omega, Or.inl rfl⟩
  have hb : (if w = V7_UNDEFINED then 1 else 0) ≤ 1 ∧
      ((if w = V7_UNDEFINED then 1 else 0) = 0 ∨ t = 65533 * 2 ^ 48) := by
    split_ifs with h
    · exact ⟨le_refl _, Or.inr (hu h)⟩
    · exact ⟨by omega, Or.inl rfl⟩
  generalize (if w = V7_NULL then 1 else 0) = a at ha ⊢
  generalize (if w = V7_UNDEFINED then 1 else 0) = b at hb ⊢
  obtain ⟨ha1, ha2⟩ := ha
  obtain ⟨hb1, hb2⟩ := hb
  clear hn hu
  split_ifs <;> omega

theorem v7_is_double_iff (w : Nat) :
    v7_is_double w = true ↔ tag_of w = V7_TAG_NAN ∨ tag_of w ∉ V7_TAGS := by
  simp [v7_is_double]

theorem only_double_aux : ∀ a b c d e f g : Bool,
    [a, b, c, d, e, true, f, g].count true ≤ 1 →
    a = false ∧ b = false ∧ c = false ∧ d = false ∧ e = false ∧ f = false ∧ g = false := by
  intro a b c d e f g
  cases a <;> cases b <;> cases c <;> cases d <;> cases e <;> cases f <;> cases g <;> decide

/-- A word on which `v7_is_double` holds satisfies no other type predicate. -/
theorem only_double (w : Nat) (h : v7_is_double w = true) :
    v7_is_object w = false ∧ v7_is_function w = false ∧ v7_is_cfunction w = false ∧
    v7_is_string w = false ∧ v7_is_boolean w = false ∧ v7_is_null w = false ∧
    v7_is_undefined w = false := by
  have hc := type_predicates_count w
  unfold type_predicates at hc
  rw [h] at hc
  exact only_double_aux _ _ _ _ _ _ _ hc

theorem tag_of_tagged (T p : Nat) (hT : T ∈ V7_TAGS) (hp : p < 2 ^ 48) :
    tag_of (T ||| p) = T ∧ payload_of (T ||| p) = p := by
  obtain ⟨k, hl, hu, rfl⟩ := (mem_tags_iff T).1 hT
  rw [tag_or_payload k p hp, tag_of_eq, payload_of_eq]
  omega

theorem masked_predicates_count (w : Nat) :
    [v7_is_object w, v7_is_function w, v7_is_cfunction w, v7_is_string w, v7_is_boolean w,
      v7_is_double w, w &&& V7_TAG_MASK == V7_TAG_FOREIGN,
      w &&& V7_TAG_MASK == V7_TAG_UNDEFINED].count true ≤ 1 := by
  obtain ⟨h1, h2, h3, h4, h5, h6, h7, h8, h9, h10⟩ := tag_consts
  simp only [v7_is_object, v7_is_function, v7_is_cfunction, v7_is_string,
    v7_is_boolean, v7_is_double, V7_TAGS]
  have ht : w &&& V7_TAG_MASK = tag_of w := rfl
  rw [ht]
  generalize tag_of w = t
  simp only [h1, h2, h3, h4, h5, h6, h7, h8, h9, h10, List.contains_cons, List.contains_nil,
     List.count_cons, List.count_nil, beq_iff_eq, Bool.or_eq_true, Bool.not_eq_true',
     Bool.or_false, Bool.or_eq_false_iff, beq_eq_false_iff_ne]
  split_ifs <;> omega

/-! ## The value encoding claims -/

/-- C1: the ten tag constants are pairwise distinct and have their low 48 bits
zero, the masked value of any word equals at most one of them, at most one of
the eight type predicates is true of any word (also when null and undefined
are tested on the masked word alone), and a word whose masked value equals no
tag is classified as a double. -/
theorem tags_mutually_exclusive :
    V7_TAGS.Nodup ∧ V7_TAGS.length = 10 ∧ (∀ T ∈ V7_TAGS, T &&& not64 V7_TAG_MASK = 0) ∧
    (∀ w : Nat, V7_TAGS.count (w &&& V7_TAG_MASK) ≤ 1) ∧
    (∀ w : Nat, (type_predicates w).count true ≤ 1) ∧
    (∀ w : Nat, [v7_is_object w, v7_is_function w, v7_is_cfunction w, v7_is_string w,
      v7_is_boolean w, v7_is_double w, w &&& V7_TAG_MASK == V7_TAG_FOREIGN,
      w &&& V7_TAG_MASK == V7_TAG_UNDEFINED].count true ≤ 1) ∧
    (∀ w : Nat, w &&& V7_TAG_MASK ∉ V7_TAGS → v7_is_double w = true) := by
  have hnd : V7_TAGS.Nodup := by decide
  refine ⟨hnd, rfl, by decide, fun w => List.nodup_iff_count_le_one.1 hnd _,
    type_predicates_count, masked_predicates_count, fun w h => ?_⟩
  exact (v7_is_double_iff w).2 (Or.inr h)

theorem tags_mutually_exclusive_witness :
    0x3FF0000000000000 &&& V7_TAG_MASK ∉ V7_TAGS ∧ v7_is_double 0x3FF0000000000000 = true :=
  ⟨by decide, tags_mutually_exclusive.2.2.2.2.2.2 0x3FF0000000000000 (by decide)⟩

/-- C2: every tagged word `T | p` (`T` one of the ten tags, `p` a 48-bit
payload) has its sign bit set, all eleven exponent bits set and a non-zero
mantissa, so it is a NaN pattern; and the top 16 bits of a word that is not a
NaN equal none of the ten tags, so the word is read as a double. -/
theorem tagged_words_are_nans :
    (∀ T ∈ V7_TAGS, ∀ p, p < 2 ^ 48 →
      f64_sign (T ||| p) = 1 ∧ f64_exponent (T ||| p) = 0x7FF ∧
      f64_mantissa (T ||| p) ≠ 0 ∧ f64_isnan (T ||| p) = true) ∧
    (∀ w, f64_isnan w = false → w &&& V7_TAG_MASK ∉ V7_TAGS ∧ v7_is_double w = true) := by
  constructor
  · intro T hT p hp
    obtain ⟨k, hl, hu, rfl⟩ := (mem_tags_iff T).1 hT
    have hnan : f64_isnan (k * 2 ^ 48 ||| p) = true := by
      rw [f64_isnan_iff, tag_or_payload k p hp]; omega
    rw [f64_sign_eq, f64_exponent_eq, f64_mantissa_eq, tag_or_payload k p hp]
    rw [tag_or_payload k p hp] at hnan
    refine ⟨by omega, by omega, by omega, hnan⟩
  · intro w hw
    have hno : tag_of w ∉ V7_TAGS := by
      intro hmem
      obtain ⟨k, hl, hu, hk⟩ := (mem_tags_iff _).1 hmem
      rw [tag_of_eq] at hk
      have : f64_isnan w = true := by rw [f64_isnan_iff]; omega
      rw [this] at hw
      exact Bool.noConfusion hw
    exact ⟨hno, (v7_is_double_iff w).2 (Or.inr hno)⟩

theorem tagged_words_are_nans_witness :
    (f64_sign (V7_TAG_STRING_I ||| 0x626102) = 1 ∧
      f64_exponent (V7_TAG_STRING_I ||| 0x626102) = 0x7FF ∧
      f64_mantissa (V7_TAG_STRING_I ||| 0x626102) ≠ 0 ∧
      f64_isnan (V7_TAG_STRING_I ||| 0x626102) = true) ∧
    (0xFFF0000000000000 &&& V7_TAG_MASK ∉ V7_TAGS ∧ v7_is_double 0xFFF0000000000000 = true) :=
  ⟨tagged_words_are_nans.1 V7_TAG_STRING_I (by decide) 0x626102 (by decide),
   tagged_words_are_nans.2 0xFFF0000000000000 (by decide)⟩

/-- C3: for each of the ten tags `T` and every payload `p < 2^48` the word
`T | p` has tag `T` and payload `p`; an encoded object reference, function
reference, foreign pointer, native-function pointer or boolean decodes to the
original payload, and the predicate of its kind holds of the encoded word
(for a foreign pointer, which has no predicate of its own, the tag is the
Foreign tag). -/
theorem tagging_round_trip (T p : Nat) (hT : T ∈ V7_TAGS) (hp : p < 2 ^ 48) :
    (T ||| p) &&& V7_TAG_MASK = T ∧ (T ||| p) &&& not64 V7_TAG_MASK = p ∧
    (val_to_object (v7_object_to_value p) = p ∧ v7_is_object (v7_object_to_value p) = true) ∧
    (val_to_function (v7_function_to_value p) = p ∧
      v7_is_function (v7_function_to_value p) = true) ∧
    (val_to_foreign (v7_foreign_to_value p) = p ∧
      v7_foreign_to_value p &&& V7_TAG_MASK = V7_TAG_FOREIGN) ∧
    (val_to_cfunction (v7_cfunction_to_value p) = p ∧
      v7_is_cfunction (v7_cfunction_to_value p) = true) ∧
    (∀ b : Bool, val_to_boolean (v7_boolean_to_value b) = b ∧
      v7_is_boolean (v7_boolean_to_value b) = true ∧
      v7_boolean_to_value b &&& not64 V7_TAG_MASK = (if b then 1 else 0)) := by
  have hptr : v7_pointer_to_value p = p := by rw [v7_pointer_to_value_eq]; omega
  have key : ∀ T ∈ V7_TAGS, tag_of (T ||| p) = T ∧ val_to_pointer (T ||| p) = p :=
    fun T hT => tag_of_tagged T p hT hp
  refine ⟨(key T hT).1, (key T hT).2, ?_, ?_, ?_, ?_, ?_⟩
  · have h := key V7_TAG_OBJECT (by decide)
    simp only [val_to_object, v7_object_to_value, v7_is_object, hptr, h.1, h.2, beq_self_eq_true,
      and_self]
  · have h := key V7_TAG_FUNCTION (by decide)
    simp only [val_to_function, v7_function_to_value, v7_is_function, hptr, h.1, h.2,
      beq_self_eq_true, and_self]
  · have h := key V7_TAG_FOREIGN (by decide)
    have h1 := h.1
    unfold tag_of at h1
    simp only [val_to_foreign, v7_foreign_to_value, hptr, h1, h.2, and_self]
  · have h := key V7_TAG_CFUNCTION (by decide)
    simp only [val_to_cfunction, v7_cfunction_to_value, v7_is_cfunction, hptr, h.1, h.2,
      beq_self_eq_true, and_self]
  · intro b
    cases b <;> decide

theorem tagging_round_trip_witness :
    (V7_TAG_FUNCTION ||| 0x7F00DEADBEE8) &&& V7_TAG_MASK = V7_TAG_FUNCTION ∧
    (V7_TAG_FUNCTION ||| 0x7F00DEADBEE8) &&& not64 V7_TAG_MASK = 0x7F00DEADBEE8 ∧
    val_to_object (v7_object_to_value 0x7F00DEADBEE8) = 0x7F00DEADBEE8 :=
  have h := tagging_round_trip V7_TAG_FUNCTION 0x7F00DEADBEE8 (by decide) (by decide)
  ⟨h.1, h.2.1, h.2.2.1.1⟩

/-- C4: for every 64-bit double bit pattern `d`, storing and reloading it gives
back exactly `d` when `d` is not a NaN; every NaN is stored as the single
pattern `V7_TAG_NAN = 0xFFFB000000000000`, itself a NaN; in both cases
`v7_is_double` holds of the stored word and no other type predicate does. -/
theorem double_round_trip (d : Nat) (hd : d < 2 ^ 64) :
    (f64_isnan d = false → val_to_double (v7_double_to_value d) = d) ∧
    (f64_isnan d = true → v7_double_to_value d = V7_TAG_NAN) ∧
    V7_TAG_NAN = 0xFFFB000000000000 ∧ f64_isnan V7_TAG_NAN = true ∧
    v7_is_double (v7_double_to_value d) = true ∧
    v7_is_object (v7_double_to_value d) = false ∧
    v7_is_function (v7_double_to_value d) = false ∧
    v7_is_cfunction (v7_double_to_value d) = false ∧
    v7_is_string (v7_double_to_value d) = false ∧
    v7_is_boolean (v7_double_to_value d) = false ∧
    v7_is_null (v7_double_to_value d) = false ∧
    v7_is_undefined (v7_double_to_value d) = false := by
  have hu : u64 d = d := Nat.mod_eq_of_lt hd
  have hdbl : v7_is_double (v7_double_to_value d) = true := by
    unfold v7_double_to_value
    cases hn : f64_isnan d
    · simp only [Bool.false_eq_true, if_false, hu]
      exact (tagged_words_are_nans.2 d hn).2
    · simp only [if_true]
      decide
  refine ⟨fun hn => ?_, fun hn => ?_, by decide, by decide, hdbl, only_double _ hdbl⟩
  · simp only [val_to_double, v7_double_to_value, hn, Bool.false_eq_true, if_false, hu]
  · simp only [v7_double_to_value, hn, if_true]

theorem double_round_trip_witness :
    val_to_double (v7_double_to_value 0x3FF0000000000000) = 0x3FF0000000000000 ∧
    v7_double_to_value 0x7FF8000000000001 = V7_TAG_NAN :=
  ⟨(double_round_trip 0x3FF0000000000000 (by decide)).1 (by decide),
   (double_round_trip 0x7FF8000000000001 (by decide)).2.1 (by decide)⟩

/-- C5: `V7_NULL` is the Foreign tag with a zero payload and is the word
obtained by tagging the zero foreign pointer; `v7_is_null` holds of a 64-bit
word exactly when it has the Foreign tag and a zero payload, so a
Foreign-tagged word with a non-zero payload is not null; `V7_UNDEFINED` is the
Undefined tag with a zero payload and differs from `V7_NULL`. -/
theorem null_is_foreign_zero (w : Nat) (hw : w < 2 ^ 64) :
    V7_NULL = V7_TAG_FOREIGN ||| 0 ∧ v7_foreign_to_value 0 = V7_NULL ∧
    (v7_is_null w = true ↔ w &&& V7_TAG_MASK = V7_TAG_FOREIGN ∧ w &&& not64 V7_TAG_MASK = 0) ∧
    (w &&& V7_TAG_MASK = V7_TAG_FOREIGN → w &&& not64 V7_TAG_MASK ≠ 0 → v7_is_null w = false) ∧
    V7_UNDEFINED = V7_TAG_UNDEFINED ||| 0 ∧ V7_UNDEFINED ≠ V7_NULL := by
  have hiff : v7_is_null w = true ↔
      w &&& V7_TAG_MASK = V7_TAG_FOREIGN ∧ w &&& not64 V7_TAG_MASK = 0 := by
    have ht := tag_of_eq w
    have hp := payload_of_eq w
    unfold tag_of at ht
    unfold payload_of at hp
    rw [ht, hp]
    simp only [v7_is_null, V7_NULL, tag_consts.2.1, beq_iff_eq]
    omega
  refine ⟨by decide, by decide, hiff, fun h1 h2 => ?_, by decide, by decide⟩
  cases hn : v7_is_null w
  · rfl
  · exact absurd (hiff.1 hn).2 h2

theorem null_is_foreign_zero_witness :
    (v7_is_null V7_NULL = true ↔
      V7_NULL &&& V7_TAG_MASK = V7_TAG_FOREIGN ∧ V7_NULL &&& not64 V7_TAG_MASK = 0) ∧
    v7_is_null (V7_TAG_FOREIGN ||| 0x1000) = false :=
  ⟨(null_is_foreign_zero V7_NULL (by decide)).2.2.1,
   (null_is_foreign_zero (V7_TAG_FOREIGN ||| 0x1000) (by decide)).2.2.2.1 (by decide)
     (by decide)⟩

/-- C10: the negative quiet NaN `0xFFF8000000000000` is a NaN other than
`V7_TAG_NAN` whose masked value is `V7_TAG_STRING_F`, and every word whose top
16 bits lie in `0xFFF6..0xFFFF` and are not `0xFFFB` is a NaN pattern that
`v7_is_double` rejects: its masked value is one of the nine non-number tags. -/
theorem raw_nan_collides_with_tags (w : Nat) (hlo : 0xFFF6 ≤ w >>> 48)
    (hhi : w >>> 48 ≤ 0xFFFF) (hne : w >>> 48 ≠ 0xFFFB) :
    (f64_isnan 0xFFF8000000000000 = true ∧ 0xFFF8000000000000 ≠ V7_TAG_NAN ∧
      0xFFF8000000000000 &&& V7_TAG_MASK = V7_TAG_STRING_F ∧
      v7_is_string 0xFFF8000000000000 = true) ∧
    f64_isnan w = true ∧ v7_is_double w = false ∧
    w &&& V7_TAG_MASK ∈ V7_TAGS ∧ w &&& V7_TAG_MASK ≠ V7_TAG_NAN ∧
    (v7_is_object w || v7_is_function w || v7_is_cfunction w || v7_is_string w ||
      v7_is_boolean w || w &&& V7_TAG_MASK == V7_TAG_FOREIGN ||
      w &&& V7_TAG_MASK == V7_TAG_UNDEFINED) = true := by
  rw [Nat.shiftRight_eq_div_pow] at hlo hhi hne
  have ht := tag_of_eq w
  have hmem : tag_of w ∈ V7_TAGS := (mem_tags_iff _).2 ⟨w / 2 ^ 48, hlo, hhi, by rw [ht]; omega⟩
  have hnn : tag_of w ≠ V7_TAG_NAN := by rw [ht, tag_consts.2.2.2.2.1]; omega
  have hd : v7_is_double w = false := by
    cases h : v7_is_double w
    · rfl
    · rcases (v7_is_double_iff w).1 h with h1 | h1
      · exact absurd h1 hnn
      · exact absurd hmem h1
  refine ⟨by decide, ?_, hd, hmem, hnn, ?_⟩
  · rw [f64_isnan_iff]; omega
  · have hmem2 := hmem
    simp only [V7_TAGS, List.mem_cons, List.mem_singleton, List.not_mem_nil, or_false] at hmem2
    simp only [v7_is_object, v7_is_function, v7_is_cfunction, v7_is_string, v7_is_boolean,
      Bool.or_eq_true, beq_iff_eq]
    unfold tag_of at hmem2 hnn ⊢
    tauto

theorem raw_nan_collides_with_tags_witness :
    f64_isnan 0xFFFF000000001234 = true ∧ v7_is_double 0xFFFF000000001234 = false :=
  have h := raw_nan_collides_with_tags 0xFFFF000000001234 (by decide) (by decide) (by decide)
  ⟨h.2.1, h.2.2.1⟩

/-! ## Chains and the object store -/

theorem inline_round_trip_1 (a : Nat) (hxa : a < 256) :
    inline_payload [a] < 2 ^ 48 ∧
    inline_bytes (inline_payload [a]) = some [a] := by
  simp only [inline_payload, pack_bytes, List.length_cons, List.length_nil,
    Nat.mod_eq_of_lt hxa]
  generalize inline_sum : _ + 256 * _ = N
  have h0 : N % 256 = 1 := by omega
  have k0 : N >>> (8 * (0 + 1)) % 256 = a := by
    rw [show 8 * (0 + 1) = 8 from rfl, Nat.shiftRight_eq_div_pow]; omega
  refine ⟨by omega, ?_⟩
  simp only [inline_bytes, h0, show List.range 1 = [0] from rfl, List.map_cons,
    List.map_nil, k0]
  rfl

theorem inline_round_trip_2 (a b : Nat) (hxa : a < 256) (hxb : b < 256) :
    inline_payload [a, b] < 2 ^ 48 ∧
    inline_bytes (inline_payload [a, b]) = some [a, b] := by
  simp only [inline_payload, pack_bytes, List.length_cons, List.length_nil,
    Nat.mod_eq_of_lt hxa, Nat.mod_eq_of_lt hxb]
  generalize inline_sum : _ + 256 * _ = N
  have h0 : N % 256 = 2 := by omega
  have k0 : N >>> (8 * (0 + 1)) % 256 = a := by
    rw [show 8 * (0 + 1) = 8 from rfl, Nat.shiftRight_eq_div_pow]; omega
  have k1 : N >>> (8 * (1 + 1)) % 256 = b := by
    rw [show 8 * (1 + 1) = 16 from rfl, Nat.shiftRight_eq_div_pow]; omega
  refine ⟨by omega, ?_⟩
  simp only [inline_bytes, h0, show List.range 2 = [0, 1] from rfl, List.map_cons,
    List.map_nil, k0, k1]
  rfl

theorem inline_round_trip_3 (a b d : Nat) (hxa : a < 256) (hxb : b < 256)
    (hxd : d < 256) :
    inline_payload [a, b, d] < 2 ^ 48 ∧
    inline_bytes (inline_payload [a, b, d]) = some [a, b, d] := by
  simp only [inline_payload, pack_bytes, List.length_cons, List.length_nil,
    Nat.mod_eq_of_lt hxa, Nat.mod_eq_of_lt hxb, Nat.mod_eq_of_lt hxd]
  generalize inline_sum : _ + 256 * _ = N
  have h0 : N % 256 = 3 := by omega
  have k0 : N >>> (8 * (0 + 1)) % 256 = a := by
    rw [show 8 * (0 + 1) = 8 from rfl, Nat.shiftRight_eq_div_pow]; omega
  have k1 : N >>> (8 * (1 + 1)) % 256 = b := by
    rw [show 8 * (1 + 1) = 16 from rfl, Nat.shiftRight_eq_div_pow]; omega
  have k2 : N >>> (8 * (2 + 1)) % 256 = d := by
    rw [show 8 * (2 + 1) = 24 from rfl, Nat.shiftRight_eq_div_pow]; omega
  refine ⟨by omega, ?_⟩
  simp only [inline_bytes, h0, show List.range 3 = [0, 1, 2] from rfl, List.map_cons,
    List.map_nil, k0, k1, k2]
  rfl

theorem inline_round_trip_4 (a b d e : Nat) (hxa : a < 256) (hxb : b < 256)
    (hxd : d < 256) (hxe : e < 256) :
    inline_payload [a, b, d, e] < 2 ^ 48 ∧
    inline_bytes (inline_payload [a, b, d, e]) = some [a, b, d, e] := by
  simp only [inline_payload, pack_bytes, List.length_cons, List.length_nil,
    Nat.mod_eq_of_lt hxa, Nat.mod_eq_of_lt hxb, Nat.mod_eq_of_lt hxd,
    Nat.mod_eq_of_lt hxe]
  generalize inline_sum : _ + 256 * _ = N
  have h0 : N % 256 = 4 := by omega
  have k0 : N >>> (8 * (0 + 1)) % 256 = a := by
    rw [show 8 * (0 + 1) = 8 from rfl, Nat.shiftRight_eq_div_pow]; omega
  have k1 : N >>> (8 * (1 + 1)) % 256 = b := by
    rw [show 8 * (1 + 1) = 16 from rfl, Nat.shiftRight_eq_div_pow]; omega
  have k2 : N >>> (8 * (2 + 1)) % 256 = d := by
    rw [show 8 * (2 + 1) = 24 from rfl, Nat.shiftRight_eq_div_pow]; omega
  have k3 : N >>> (8 * (3 + 1)) % 256 = e := by
    rw [show 8 * (3 + 1) = 32 from rfl, Nat.shiftRight_eq_div_pow]; omega
  refine ⟨by omega, ?_⟩
  simp only [inline_bytes, h0, show List.range 4 = [0, 1, 2, 3] from rfl, List.map_cons,
    List.map_nil, k0, k1, k2, k3]
  rfl

theorem inline_round_trip_5 (a b d e g : Nat) (hxa : a < 256) (hxb : b < 256)
    (hxd : d < 256) (hxe : e < 256) (hxg : g < 256) :
    inline_payload [a, b, d, e, g] < 2 ^ 48 ∧
    inline_bytes (inline_payload [a, b, d, e, g]) = some [a, b, d, e, g] := by
  simp only [inline_payload, pack_bytes, List.length_cons, List.length_nil,
    Nat.mod_eq_of_lt hxa, Nat.mod_eq_of_lt hxb, Nat.mod_eq_of_lt hxd,
    Nat.mod_eq_of_lt hxe, Nat.mod_eq_of_lt hxg]
  generalize inline_sum : _ + 256 * _ = N
  have h0 : N % 256 = 5 := by omega
  have k0 : N >>> (8 * (0 + 1)) % 256 = a := by
    rw [show 8 * (0 + 1) = 8 from rfl, Nat.shiftRight_eq_div_pow]; omega
  have k1 : N >>> (8 * (1 + 1)) % 256 = b := by
    rw [show 8 * (1 + 1) = 16 from rfl, Nat.shiftRight_eq_div_pow]; omega
  have k2 : N >>> (8 * (2 + 1)) % 256 = d := by
    rw [show 8 * (2 + 1) = 24 from rfl, Nat.shiftRight_eq_div_pow]; omega
  have k3 : N >>> (8 * (3 + 1)) % 256 = e := by
    rw [show 8 * (3 + 1) = 32 from rfl, Nat.shiftRight_eq_div_pow]; omega
  have k4 : N >>> (8 * (4 + 1)) % 256 = g := by
    rw [show 8 * (4 + 1) = 40 from rfl, Nat.shiftRight_eq_div_pow]; omega
  refine ⟨by omega, ?_⟩
  simp only [inline_bytes, h0, show List.range 5 = [0, 1, 2, 3, 4] from rfl, List.map_cons,
    List.map_nil, k0, k1, k2, k3, k4]
  rfl

/-- An Inline payload built from at most five bytes fits the 48 bits and reads
back as the same bytes. -/
theorem inline_round_trip (s : List Nat) (hlen : s.length ≤ 5) (hb : ∀ x ∈ s, x < 256) :
    inline_payload s < 2 ^ 48 ∧ inline_bytes (inline_payload s) = some s := by
  rcases s with _ | ⟨a, _ | ⟨b, _ | ⟨d, _ | ⟨e, _ | ⟨g, _ | ⟨f, t⟩⟩⟩⟩⟩⟩
  · exact ⟨by decide, by decide⟩
  · exact inline_round_trip_1 a (hb a (by simp))
  · exact inline_round_trip_2 a b (hb a (by simp)) (hb b (by simp))
  · exact inline_round_trip_3 a b d (hb a (by simp)) (hb b (by simp)) (hb d (by simp))
  · exact inline_round_trip_4 a b d e (hb a (by simp)) (hb b (by simp)) (hb d (by simp))
      (hb e (by simp))
  · exact inline_round_trip_5 a b d e g (hb a (by simp)) (hb b (by simp)) (hb d (by simp))
      (hb e (by simp)) (hb g (by simp))
  · simp only [List.length_cons] at hlen
    omega

theorem val_to_string_inline (c : v7) (s : List Nat) (hlen : s.length ≤ 5)
    (hb : ∀ x ∈ s, x < 256) :
    val_to_string c (V7_TAG_STRING_I ||| inline_payload s) = some s := by
  obtain ⟨h1, h2⟩ := inline_round_trip s hlen hb
  obtain ⟨t1, t2⟩ := tag_of_tagged V7_TAG_STRING_I (inline_payload s) (by decide) h1
  simp only [val_to_string, t1, t2, beq_self_eq_true, if_true, h2]

theorem val_to_string_owned (c : v7) (p : Nat) (hp : p < 2 ^ 48) :
    val_to_string c (V7_TAG_STRING_O ||| p) = c.bufs[p]? := by
  obtain ⟨t1, t2⟩ := tag_of_tagged V7_TAG_STRING_O p (by decide) hp
  have hne : (V7_TAG_STRING_O == V7_TAG_STRING_I) = false := by decide
  simp only [val_to_string, t1, t2, hne, Bool.false_eq_true, if_false, beq_self_eq_true,
    Bool.true_or, if_true]

theorem val_to_string_foreign (c : v7) (p : Nat) (hp : p < 2 ^ 48) :
    val_to_string c (V7_TAG_STRING_F ||| p) = c.bufs[p]? := by
  obtain ⟨t1, t2⟩ := tag_of_tagged V7_TAG_STRING_F p (by decide) hp
  have hne : (V7_TAG_STRING_F == V7_TAG_STRING_I) = false := by decide
  simp only [val_to_string, t1, t2, hne, Bool.false_eq_true, if_false, beq_self_eq_true,
    Bool.or_true, if_true]

theorem val_to_string_is_string (c : v7) (x : Nat) (s : List Nat)
    (hx : val_to_string c x = some s) : v7_is_string x = true := by
  unfold val_to_string at hx
  unfold v7_is_string
  split at hx
  · simp_all
  · split at hx
    · simp_all
    · cases hx

/-- A constructed string value holds the bytes it was built from: the first
`len` bytes of the buffer at `p`, whatever the variant chosen. -/
theorem v7_string_to_value_holds (c c1 : v7) (p len v : Nat) (own : Bool) (b : List Nat)
    (hbuf : c.bufs[p]? = some b) (hbytes : ∀ x ∈ b, x < 256)
    (haddr : c.bufs.length < 2 ^ 48)
    (hv : v7_string_to_value c p len own = string_result.value v c1) :
    len ≤ b.length ∧ val_to_string c1 v = some (b.take len) := by
  have hp : p < c.bufs.length := (List.getElem?_eq_some.1 hbuf).1
  simp only [v7_string_to_value, hbuf] at hv
  split at hv
  · cases hv
  · rename_i hlen
    have hle : len ≤ b.length := by omega
    refine ⟨hle, ?_⟩
    split at hv
    · rename_i h5
      cases hv
      apply val_to_string_inline
      · rw [List.length_take]; omega
      · exact fun x hx => hbytes x (List.mem_of_mem_take hx)
    · split at hv
      · split at hv
        · cases hv
        · cases hv
          rw [v7_pointer_to_value_eq, Nat.mod_eq_of_lt haddr,
            val_to_string_owned _ _ haddr]
          simp
      · split at hv
        · rename_i heq
          cases hv
          rw [v7_pointer_to_value_eq, Nat.mod_eq_of_lt (by omega),
            val_to_string_foreign _ _ (by omega), hbuf, heq, List.take_length]
        · cases hv

/-! ## String comparison -/

theorem bytes_cmp_self (s : List Nat) : bytes_cmp s s = 0 := by
  induction s with
  | nil => rfl
  | cons x xs ih => simp [bytes_cmp, ih]

theorem bytes_cmp_neg_iff (s t : List Nat) : bytes_cmp s t < 0 ↔ lex_lt s t := by
  unfold lex_lt
  induction s generalizing t with
  | nil =>
    cases t with
    | nil => simp [bytes_cmp]
    | cons y ys => simp [bytes_cmp, List.Lex.nil]
  | cons x xs ih =>
    cases t with
    | nil => simp [bytes_cmp]
    | cons y ys =>
      by_cases hxy : x = y
      · subst hxy
        simp only [bytes_cmp, if_true, ih ys]
        constructor
        · exact fun h => List.Lex.cons h
        · intro h
          cases h with
          | cons h => exact h
          | rel h => exact absurd h (lt_irrefl _)
      · simp only [bytes_cmp, hxy, if_false]
        constructor
        · intro h
          exact List.Lex.rel (by omega)
        · intro h
          cases h with
          | cons h => exact absurd rfl hxy
          | rel h => omega

theorem bytes_cmp_zero_iff (s t : List Nat) : bytes_cmp s t = 0 ↔ s = t := by
  induction s generalizing t with
  | nil =>
    cases t with
    | nil => simp [bytes_cmp]
    | cons y ys => simp [bytes_cmp]
  | cons x xs ih =>
    cases t with
    | nil => simp [bytes_cmp]
    | cons y ys =>
      by_cases hxy : x = y
      · subst hxy
        simp [bytes_cmp, ih ys]
      · simp only [bytes_cmp, hxy, if_false, List.cons.injEq, false_and, iff_false]
        omega

theorem bytes_cmp_pos_iff (s t : List Nat) : 0 < bytes_cmp s t ↔ lex_lt t s := by
  unfold lex_lt
  induction s generalizing t with
  | nil =>
    cases t with
    | nil => simp [bytes_cmp]
    | cons y ys => simp [bytes_cmp]
  | cons x xs ih =>
    cases t with
    | nil => simp [bytes_cmp, List.Lex.nil]
    | cons y ys =>
      by_cases hxy : x = y
      · subst hxy
        simp only [bytes_cmp, if_true, ih ys]
        constructor
        · exact fun h => List.Lex.cons h
        · intro h
          cases h with
          | cons h => exact h
          | rel h => exact absurd h (lt_irrefl _)
      · simp only [bytes_cmp, hxy, if_false]
        constructor
        · intro h
          exact List.Lex.rel (by omega)
        · intro h
          cases h with
          | cons h => exact absurd rfl hxy
          | rel h => omega

theorem s_cmp_of_views (c : v7) (a b : Nat) (sa sb : List Nat)
    (ha : val_to_string c a = some sa) (hb : val_to_string c b = some sb) :
    s_cmp c a b = some (bytes_cmp sa sb) := by
  simp only [s_cmp, ha, hb]

/-- C9: string comparison is independent of the storage class.  The Inline
word built from a byte sequence `s` of at most five bytes, and every Owned or
Foreign word whose 48-bit payload points to a buffer holding `s`, decode to
`s`, and any two of them compare equal; a word built by `v7_string_to_value`
decodes to the bytes it was built from.  For all string values `a` and `b`,
decoding to `sa` and `sb`, `s_cmp` returns a result whose sign is that of the
byte-lexicographic comparison of `sa` and `sb`: negative exactly when `sa`
precedes `sb`, positive exactly when `sb` precedes `sa`, and 0 exactly when
the bytes and lengths are identical. -/
theorem s_cmp_ignores_storage_class (c : v7) :
    (∀ s : List Nat, s.length ≤ 5 → (∀ x ∈ s, x < 256) →
      val_to_string c (V7_TAG_STRING_I ||| inline_payload s) = some s) ∧
    (∀ p, p < 2 ^ 48 →
      val_to_string c (V7_TAG_STRING_O ||| p) = c.bufs[p]? ∧
      val_to_string c (V7_TAG_STRING_F ||| p) = c.bufs[p]?) ∧
    (∀ (s : List Nat) (p q : Nat), s.length ≤ 5 → (∀ x ∈ s, x < 256) →
      p < 2 ^ 48 → q < 2 ^ 48 → c.bufs[p]? = some s → c.bufs[q]? = some s →
      s_cmp c (V7_TAG_STRING_I ||| inline_payload s) (V7_TAG_STRING_F ||| q) = some 0 ∧
      s_cmp c (V7_TAG_STRING_O ||| p) (V7_TAG_STRING_I ||| inline_payload s) = some 0 ∧
      s_cmp c (V7_TAG_STRING_O ||| p) (V7_TAG_STRING_F ||| q) = some 0 ∧
      s_cmp c (V7_TAG_STRING_F ||| q) (V7_TAG_STRING_O ||| p) = some 0) ∧
    (∀ (c1 : v7) (p len v : Nat) (own : Bool) (b : List Nat),
      c.bufs[p]? = some b → (∀ x ∈ b, x < 256) → c.bufs.length < 2 ^ 48 →
      v7_string_to_value c p len own = string_result.value v c1 →
      val_to_string c1 v = some (b.take len)) ∧
    (∀ (a b : Nat) (sa sb : List Nat),
      val_to_string c a = some sa → val_to_string c b = some sb →
      (v7_is_string a = true ∧ v7_is_string b = true) ∧
      (sa = sb → s_cmp c a b = some 0) ∧
      ∃ r, s_cmp c a b = some r ∧ (r < 0 ↔ lex_lt sa sb) ∧ (r = 0 ↔ sa = sb) ∧
        (0 < r ↔ lex_lt sb sa)) := by
  refine ⟨fun s hl hb => val_to_string_inline c s hl hb,
    fun p hp => ⟨val_to_string_owned c p hp, val_to_string_foreign c p hp⟩,
    fun s p q hl hb hp hq hbp hbq => ?_,
    fun c1 p len v own b hbuf hbytes haddr hv =>
      (v7_string_to_value_holds c c1 p len v own b hbuf hbytes haddr hv).2,
    fun a b sa sb ha hb => ?_⟩
  · have hi := val_to_string_inline c s hl hb
    have ho := (val_to_string_owned c p hp).trans hbp
    have hf := (val_to_string_foreign c q hq).trans hbq
    refine ⟨?_, ?_, ?_, ?_⟩
    · rw [s_cmp_of_views c _ _ s s hi hf, bytes_cmp_self]
    · rw [s_cmp_of_views c _ _ s s ho hi, bytes_cmp_self]
    · rw [s_cmp_of_views c _ _ s s ho hf, bytes_cmp_self]
    · rw [s_cmp_of_views c _ _ s s hf ho, bytes_cmp_self]
  · have hs := s_cmp_of_views c a b sa sb ha hb
    refine ⟨⟨val_to_string_is_string c a sa ha, val_to_string_is_string c b sb hb⟩,
      fun h => ?_, bytes_cmp sa sb, hs, bytes_cmp_neg_iff sa sb, bytes_cmp_zero_iff sa sb,
      bytes_cmp_pos_iff sa sb⟩
    rw [hs, h, bytes_cmp_self]

theorem s_cmp_ignores_storage_class_witness :
    (s_cmp ⟨[], 0, [[], [97, 98], [97, 98]], 0⟩
        (V7_TAG_STRING_I ||| inline_payload [97, 98]) (V7_TAG_STRING_F ||| 1) = some 0 ∧
      s_cmp ⟨[], 0, [[], [97, 98], [97, 98]], 0⟩
        (V7_TAG_STRING_O ||| 2) (V7_TAG_STRING_I ||| inline_payload [97, 98]) = some 0) ∧
    ∃ r, s_cmp ⟨[], 0, [[], [97, 98], [97, 98]], 0⟩
        (V7_TAG_STRING_I ||| inline_payload [97, 98])
        (V7_TAG_STRING_I ||| inline_payload [99, 100]) = some r ∧
      (r < 0 ↔ lex_lt [97, 98] [99, 100]) ∧ (r = 0 ↔ [97, 98] = [99, 100]) :=
  have w := s_cmp_ignores_storage_class ⟨[], 0, [[], [97, 98], [97, 98]], 0⟩
  have w3 := w.2.2.1 [97, 98] 2 1 (by decide) (by decide) (by decide) (by decide)
    (by decide) (by decide)
  have w5 := (w.2.2.2.2 (V7_TAG_STRING_I ||| inline_payload [97, 98])
    (V7_TAG_STRING_I ||| inline_payload [99, 100]) [97, 98] [99, 100]
    (by decide) (by decide)).2.2
  ⟨⟨w3.1, w3.2.1⟩, w5.choose, w5.choose_spec.1, w5.choose_spec.2.1, w5.choose_spec.2.2.1⟩

end V7
